import Mathlib

/-!
Verification development for the DashScope client SDK's streaming core.

The main object of study is `merge_single_response`
(`dashscope/utils/message_utils.py`), which folds a stream of incremental
response fragments into per-choice accumulated state, together with the
dialog state machine (`dashscope/multimodal/dialog_state.py`) and the
session-lifecycle guards of `TranslationRecognizerRealtime`
(`dashscope/audio/asr/translation_recognizer.py`).

Python dicts keyed by choice index are embedded as insertion-ordered
association lists (`List (Nat × _)`); dict assignment replaces the value in
place for an existing key and appends for a new key, exactly as Python
preserves insertion order.  Python's in-place mutation of the response and
of `accumulated_data` is embedded as explicit state passing: the merge
function returns the mutated response (inside the result signal) together
with the new accumulator.

The response classes (`dashscope/api_entities/dashscope_response.py`) are
not vendored in this repository; per the specification's data model, a
fragment optionally carries a scalar `text` field, a `choices` array,
per-choice `message`/`logprobs`/`finish_reason`, and `usage` counters.
Optional fields are embedded as `Option`, where `none` means the key is
absent (or `None`), and Python truthiness of strings/lists is tested
explicitly.
-/

/-- Generic insertion-ordered association-list lookup (Python `dict.get`). -/
def alistGet {α : Type} (k : Nat) : List (Nat × α) → Option α
  | [] => none
  | (i, v) :: t => if i = k then some v else alistGet k t

/-- Generic insertion-ordered association-list assignment (Python
`d[k] = v`): replaces in place when the key exists, appends otherwise. -/
def alistSet {α : Type} (k : Nat) (v : α) : List (Nat × α) → List (Nat × α)
  | [] => [(k, v)]
  | (i, w) :: t => if i = k then (i, v) :: t else (i, w) :: alistSet k v t

/-- Python truthiness of an optional string field (`hasattr` + `if value:`). -/
def strTruthy : Option String → Bool
  | some s => s ≠ ""
  | none => false

/-- Truthiness test `choice.finish_reason and choice.finish_reason != 'null'`. -/
def finishTruthy : Option String → Bool
  | some s => s ≠ "" && s ≠ "null"
  | none => false

/-- The `function` sub-dict of a streamed tool call: `name` and `arguments`
accumulate by concatenation; any other keys are kept in `extra` and merged
last-write-wins (`dict.update` restricted to truthy values). -/
structure FnCall where
  name : Option String
  arguments : Option String
  extra : List (String × String)
deriving Repr, DecidableEq

/-- One tool-call dict in a fragment or in the accumulator.  `index` keys
the accumulation; `id` and `ctype` (the wire key `type`) stand for the
non-`function` keys merged last-write-wins. -/
structure ToolCall where
  index : Option Nat
  id : Option String
  ctype : Option String
  function : Option FnCall
deriving Repr, DecidableEq

/-- Python truthiness of a `function` dict (`current_call['function']`):
a dict is truthy iff non-empty. -/
def fnTruthy (f : FnCall) : Bool :=
  f.name.isSome || f.arguments.isSome || !f.extra.isEmpty

/-- One element of a multimodal content array: a dict with an optional
`text` key (other keys are not material to the merge). -/
structure MMPart where
  text : Option String
deriving Repr, DecidableEq

/-- The value of a message `content` key on the wire: a plain string or a
multimodal array. -/
inductive Content where
  | str (s : String)
  | parts (l : List MMPart)
deriving Repr, DecidableEq

/-- Accumulated content: a string, or the per-part accumulated texts of a
multimodal array (each part is stored as its accumulated `text`). -/
inductive AccContent where
  | str (s : String)
  | parts (l : List String)
deriving Repr, DecidableEq

/-- Python truthiness of a content value (`if current_content:`). -/
def contentTruthy : Content → Bool
  | .str s => s ≠ ""
  | .parts l => !l.isEmpty

/-- The check `isinstance(current_content, list)`. -/
def contentIsList : Content → Bool
  | .str _ => false
  | .parts _ => true

/-- Python truthiness of accumulated content (`if data['content']:`). -/
def accContentTruthy : AccContent → Bool
  | .str s => s ≠ ""
  | .parts l => !l.isEmpty

/-- Render accumulated content as a wire content value (the dict written
back into a message). -/
def accContentToContent : AccContent → Content
  | .str s => .str s
  | .parts l => .parts (l.map (fun t => ⟨some t⟩))

/-- A message dict.  `none` fields are absent keys (`'content' in
choice.message` is `Option.isSome`). -/
structure Message where
  role : Option String
  content : Option Content
  reasoning_content : Option String
  tool_calls : Option (List ToolCall)
deriving Repr, DecidableEq

/-- One element of the `choices` array.  `logprobs = some l` stands for a
truthy logprobs dict `{'content': l}` whose entries are opaque tokens. -/
structure Choice where
  index : Option Nat
  message : Option Message
  logprobs : Option (List Nat)
  finish_reason : Option String
deriving Repr, DecidableEq

/-- The usage dict of a fragment; each field models presence of the
corresponding key.  `prompt_tokens_details` is an opaque token. -/
structure Usage where
  input_tokens : Option Nat
  output_tokens : Option Nat
  total_tokens : Option Nat
  prompt_tokens_details : Option Nat
deriving Repr, DecidableEq

/-- Python truthiness of a usage dict: truthy iff it has at least one key. -/
def usageTruthy (u : Usage) : Bool :=
  u.input_tokens.isSome || u.output_tokens.isSome ||
    u.total_tokens.isSome || u.prompt_tokens_details.isSome

/-- The `output` object of a response: an optional scalar `text` field (the
text-shaped endpoints) and an optional `choices` array. -/
structure Output where
  text : Option String
  choices : Option (List Choice)
deriving Repr, DecidableEq

/-- A parsed streaming response fragment. -/
structure Response where
  output : Option Output
  usage : Option Usage
deriving Repr, DecidableEq

/-- Per-choice accumulated state, mirroring the dict initialised at
`message_utils.py:86-95`. -/
structure AccChoice where
  content : AccContent
  reasoning_content : String
  tool_calls : List ToolCall
  logprobs_content : List Nat
  finished : Bool
  finish_reason : Option String
  all_choices_sent : Bool
  role : Option String
deriving Repr, DecidableEq

/-- The fresh per-choice entry (`message_utils.py:86-95`). -/
def freshAcc : AccChoice :=
  { content := .str "", reasoning_content := "", tool_calls := [],
    logprobs_content := [], finished := false, finish_reason := none,
    all_choices_sent := false, role := none }

/-- The dict `accumulated_data`: the per-choice entries (integer keys, in insertion
order) plus the optional `usage_by_index` entry (string key). -/
structure Accumulator where
  choices : List (Nat × AccChoice)
  usage_by_index : Option (List (Nat × Usage))
deriving Repr, DecidableEq

/-- The empty accumulator a caller starts a stream with. -/
def emptyAcc : Accumulator := { choices := [], usage_by_index := none }

/-- Python truthiness of `accumulated_data` (non-empty dict). -/
def accTruthy (a : Accumulator) : Bool :=
  !a.choices.isEmpty || a.usage_by_index.isSome

/-- The check `all(data.get('all_choices_sent', False) ...)` over the entries that
carry the key (only per-choice entries do); vacuously true when there are
none, as Python's `all` of an empty generator is. -/
def allSentAll (a : Accumulator) : Bool :=
  a.choices.all (fun p => p.2.all_choices_sent)

/-- The count `finished_count` (`message_utils.py:256-258`): per-choice entries with
a true `finished` flag (the `usage_by_index` entry has no such key). -/
def finishedCount (a : Accumulator) : Nat :=
  (a.choices.filter (fun p => p.2.finished)).length

/-- The result signal of one merge call: Python returns `True` / `False` /
a list of responses, mutating `parsed_response` in place; the mutated
response travels inside the signal here. -/
inductive MergeResult where
  | yield_ (resp : Response)
  | filtered (resp : Response)
  | multi (resps : List Response)
deriving Repr, DecidableEq

/-- Usage tracking for `n > 1` (`message_utils.py:27-44`): records the
fragment's usage under the first choice's index; the `usage_by_index` map
is created even when `output_tokens` is absent. -/
def trackUsage (n : Nat) (resp : Response) (acc : Accumulator) : Accumulator :=
  match resp.output with
  | some o =>
    match o.choices, resp.usage with
    | some (c :: _), some u =>
      if n > 1 && usageTruthy u then
        let m := acc.usage_by_index.getD []
        if u.output_tokens.isSome then
          { acc with usage_by_index := some (alistSet (c.index.getD 0) u m) }
        else
          { acc with usage_by_index := some m }
      else acc
    | _, _ => acc
  | none => acc

/-- Python `dict.update` with its insertion-order semantics, restricted to
the truthy values of the update (`if v`): existing keys are overwritten in
place, new keys appended in order. -/
def assocUpdate (base upd : List (String × String)) : List (String × String) :=
  let upd := upd.filter (fun p => p.2 ≠ "")
  (base.map (fun p => match upd.lookup p.1 with
    | some v => (p.1, v)
    | none => p)) ++ upd.filter (fun p => (base.lookup p.1).isNone)

/-- Merge one incoming tool-call delta into the accumulated call with the
same index (`message_utils.py:181-205`): `function.name` and
`function.arguments` accumulate by concatenation, all other truthy fields
win by last write. -/
def mergeToolCall (e c : ToolCall) : ToolCall :=
  let e1 :=
    match c.function with
    | some f =>
      if fnTruthy f then
        let ef := e.function.getD ⟨none, none, []⟩
        let ef :=
          match f.name with
          | some nm => { ef with name := some (ef.name.getD "" ++ nm) }
          | none => ef
        let ef :=
          match f.arguments with
          | some a => { ef with arguments := some (ef.arguments.getD "" ++ a) }
          | none => ef
        { e with function := some ef }
      else e
    | none => e
  let e2 :=
    { e1 with
      id := if strTruthy c.id then c.id else e1.id,
      ctype := if strTruthy c.ctype then c.ctype else e1.ctype }
  match c.function with
  | some f =>
    if fnTruthy f then
      match e2.function with
      | some ef =>
        let ef2 := { ef with extra := assocUpdate ef.extra f.extra }
        { e2 with function := some ef2 }
      | none => e2
    else e2
  | none => e2

/-- Replace the first accumulated call whose `index` is `i` by its merge
with `c` (Python breaks at the first match). -/
def replaceFirstMatch (i : Nat) (c : ToolCall) : List ToolCall → List ToolCall
  | [] => []
  | a :: t =>
    if a.index = some i then mergeToolCall a c :: t
    else a :: replaceFirstMatch i c t

/-- Fold the incoming tool-call deltas into the accumulated list
(`message_utils.py:169-208`); deltas without an `index` key are ignored. -/
def accumToolCalls (accCalls incoming : List ToolCall) : List ToolCall :=
  incoming.foldl (fun cur c =>
    match c.index with
    | none => cur
    | some i =>
      if cur.any (fun a => a.index = some i) then replaceFirstMatch i c cur
      else cur ++ [c]) accCalls

/-- Grow the per-part accumulator to the incoming length with empty texts
(`message_utils.py:125-126`). -/
def growParts (cur : List String) (k : Nat) : List String :=
  cur ++ List.replicate (k - cur.length) ""

/-- Accumulate a truthy multimodal content array into the per-part texts
(`message_utils.py:121-133`): a string accumulator is first reset to a
list, the list is grown, then each dict part with a truthy `text`
concatenates it at its position. -/
def mergeParts (cur : AccContent) (l : List MMPart) : List String :=
  let cur0 := match cur with | .parts pl => pl | .str _ => []
  (growParts cur0 l.length).mapIdx (fun i a =>
    match l[i]? with
    | some p =>
      match p.text with
      | some t => if t ≠ "" then a ++ t else a
      | none => a
    | none => a)

/-- The message built when a fragment's `message` is null/falsy
(`message_utils.py:98-107`): the accumulated state, with
`reasoning_content`/`tool_calls` included only when truthy. -/
def buildMessage (e : AccChoice) : Message :=
  { role := some (if strTruthy e.role then e.role.getD "" else "assistant"),
    content := some (accContentToContent e.content),
    reasoning_content :=
      if e.reasoning_content ≠ "" then some e.reasoning_content else none,
    tool_calls := if !e.tool_calls.isEmpty then some e.tool_calls else none }

/-- Content accumulation and write-back (`message_utils.py:113-152`),
returning the updated accumulated content and the message's new content
value. -/
def mergeContent (cur : AccContent) (c : Content) : AccContent × Content :=
  if contentTruthy c then
    match c with
    | .parts l =>
      let merged := mergeParts cur l
      -- per-part write-back: every incoming part's text becomes the
      -- accumulated text at its position (lines 134-137); the final
      -- write-back (146-152) then leaves the list alone
      (.parts merged, .parts (l.mapIdx (fun i _ => ⟨some (merged.getD i "")⟩)))
    | .str s =>
      let s0 := match cur with | .str s0 => s0 | .parts _ => ""
      (.str (s0 ++ s), .str (s0 ++ s))
  else
    -- falsy delta: nothing accumulated; the write-back replaces the
    -- message content by the accumulated string, or by the accumulated
    -- list when the message's own content is not a list (lines 145-152)
    match cur with
    | .str s0 => (cur, .str s0)
    | .parts pl => (cur, if contentIsList c then c else accContentToContent (.parts pl))

/-- Process a non-null message (`message_utils.py:108-219`): save the role,
accumulate content / reasoning / tool calls, and write the accumulated
values back into the message. -/
def processMessage (e : AccChoice) (msg : Message) : AccChoice × Message :=
  let e := if strTruthy msg.role then { e with role := msg.role } else e
  let (e, msg) :=
    match msg.content with
    | some c =>
      let (ac, mc) := mergeContent e.content c
      ({ e with content := ac }, { msg with content := some mc })
    | none => (e, msg)
  let e :=
    match msg.reasoning_content with
    | some rc =>
      if rc ≠ "" then
        { e with reasoning_content := e.reasoning_content ++ rc }
      else e
    | none => e
  let msg :=
    if e.reasoning_content ≠ "" then
      { msg with reasoning_content := some e.reasoning_content }
    else msg
  let (e, msg) :=
    match msg.tool_calls with
    | some tcs =>
      if !tcs.isEmpty then
        let merged := accumToolCalls e.tool_calls tcs
        ({ e with tool_calls := merged }, { msg with tool_calls := some merged })
      else if !e.tool_calls.isEmpty then
        (e, { msg with tool_calls := some e.tool_calls })
      else (e, msg)
    | none =>
      if !e.tool_calls.isEmpty then
        (e, { msg with tool_calls := some e.tool_calls })
      else (e, msg)
  let msg :=
    if strTruthy e.role && !(strTruthy msg.role) then
      { msg with role := e.role }
    else msg
  (e, msg)

/-- Process one element of the `choices` array
(`message_utils.py:77-251`): resolve the choice index (explicit `index`
key, else the enumeration position), create its accumulator entry if
missing, merge the message, extend and write back logprobs, and for
`n > 1` record a truthy `finish_reason`. -/
def processChoice (n : Nat) (acc : Accumulator) (enumIdx : Nat) (c : Choice) :
    Accumulator × Choice :=
  let cidx := c.index.getD enumIdx
  let entries :=
    if (alistGet cidx acc.choices).isSome then acc.choices
    else alistSet cidx freshAcc acc.choices
  let e := (alistGet cidx entries).getD freshAcc
  let (e, msg) :=
    match c.message with
    | none => (e, buildMessage e)
    | some m => processMessage e m
  let e :=
    match c.logprobs with
    | some l =>
      if !l.isEmpty then
        { e with logprobs_content := e.logprobs_content ++ l }
      else e
    | none => e
  let c1 := { c with message := some msg }
  let c2 :=
    if !e.logprobs_content.isEmpty && c.logprobs.isSome then
      { c1 with logprobs := some e.logprobs_content }
    else c1
  let e :=
    if n > 1 && finishTruthy c.finish_reason then
      { e with finish_reason := c.finish_reason, finished := true }
    else e
  ({ acc with choices := alistSet cidx e entries }, c2)

/-- The enumerated loop over the `choices` array, threading the
accumulator and collecting the mutated choices. -/
def processChoicesGo (n : Nat) (acc : Accumulator) (i : Nat) :
    List Choice → Accumulator × List Choice
  | [] => (acc, [])
  | c :: t =>
    let (acc1, c') := processChoice n acc i c
    let (acc2, t') := processChoicesGo n acc1 (i + 1) t
    (acc2, c' :: t')

/-- The loop `for choice_enum_idx, choice in enumerate(choices)`. -/
def processChoices (n : Nat) (acc : Accumulator) (cs : List Choice) :
    Accumulator × List Choice :=
  processChoicesGo n acc 0 cs

/-- The finished choices of the current packet
(`message_utils.py:261-270`); the index default here is 0, not the
enumeration position. -/
def finishedInPacket (cs : List Choice) : List (Nat × String × Choice) :=
  cs.filterMap (fun c =>
    if finishTruthy c.finish_reason then
      some (c.index.getD 0, c.finish_reason.getD "", c)
    else none)

/-- Insertion sort by choice index, ascending (`sorted(..., key=...)` at
`message_utils.py:297-301`; accumulator keys are unique). -/
def insertSorted (p : Nat × AccChoice) :
    List (Nat × AccChoice) → List (Nat × AccChoice)
  | [] => [p]
  | q :: t => if p.1 < q.1 then p :: q :: t else q :: insertSorted p t

/-- Sort the accumulator entries by choice index. -/
def sortByIdx (l : List (Nat × AccChoice)) : List (Nat × AccChoice) :=
  l.foldr insertSorted []

/-- The synthesized final choice for one accumulated entry
(`message_utils.py:303-331`): message fields included only when truthy. -/
def buildFinalChoice (p : Nat × AccChoice) : Choice :=
  { index := some p.1,
    finish_reason := p.2.finish_reason,
    message := some
      { role := some (if strTruthy p.2.role then p.2.role.getD "" else "assistant"),
        content :=
          if accContentTruthy p.2.content then
            some (accContentToContent p.2.content)
          else none,
        reasoning_content :=
          if p.2.reasoning_content ≠ "" then some p.2.reasoning_content
          else none,
        tool_calls :=
          if !p.2.tool_calls.isEmpty then some p.2.tool_calls else none },
    logprobs :=
      if !p.2.logprobs_content.isEmpty then some p.2.logprobs_content
      else none }

/-- Aggregate per-index usage at stream end (`message_utils.py:339-369`):
`output_tokens` summed over the entries carrying the key, `input_tokens`
and `prompt_tokens_details` taken from the first entry carrying them,
`total_tokens` recomputed when an input count exists. -/
def aggregateUsage (m : List (Nat × Usage)) : Usage :=
  let total := m.foldl (fun t p => t + p.2.output_tokens.getD 0) 0
  let it := (m.filterMap (fun p => p.2.input_tokens)).head?
  let pd := (m.filterMap (fun p => p.2.prompt_tokens_details)).head?
  { input_tokens := it, output_tokens := some total,
    total_tokens := it.map (· + total), prompt_tokens_details := pd }

/-- Replace a response's choices array (`response.output.choices = ...`;
the output object is always present on the paths that assign). -/
def setChoices (r : Response) (cs : List Choice) : Response :=
  match r.output with
  | some o => { r with output := some { o with choices := some cs } }
  | none => { r with output := some { text := none, choices := some cs } }

/-- The per-emission usage rewrite of the non-stop fan-out
(`message_utils.py:399-411`): this choice's `output_tokens`, and a
recomputed `total_tokens` when its record has `input_tokens`. -/
def updateUsageFor (u cu : Usage) : Usage :=
  match cu.output_tokens with
  | some o =>
    let u1 := { u with output_tokens := some o }
    match cu.input_tokens with
    | some i => { u1 with total_tokens := some (i + o) }
    | none => u1
  | none => u

/-- The non-stop fan-out loop (`message_utils.py:373-413`): each finished,
not-yet-sent choice is marked sent and emitted as its own single-choice
response.  The first emission mutates the original response; later
emissions are deep copies of that mutated original. -/
def fanOutGo (ub : Option (List (Nat × Usage))) :
    List (Nat × String × Choice) → List (Nat × AccChoice) → Response →
      List Response → List (Nat × AccChoice) × List Response
  | [], entries, _, outs => (entries, outs)
  | (idx, _, ch) :: rest, entries, base, outs =>
    match alistGet idx entries with
    | none => fanOutGo ub rest entries base outs
    | some d =>
      if d.all_choices_sent then fanOutGo ub rest entries base outs
      else
        let entries' := alistSet idx { d with all_choices_sent := true } entries
        let r0 := setChoices base [ch]
        let r1 :=
          match base.usage with
          | some u =>
            if usageTruthy u then
              match ub.bind (alistGet idx) with
              | some cu => { r0 with usage := some (updateUsageFor u cu) }
              | none => r0
            else r0
          | none => r0
        let base' := if outs.isEmpty then r1 else base
        fanOutGo ub rest entries' base' (outs ++ [r1])

/-- The `n > 1` completion policy (`message_utils.py:253-419`), applied to
the response whose choices were already merged. -/
def handleMulti (n : Nat) (resp : Response) (acc : Accumulator)
    (cs : List Choice) : MergeResult × Accumulator :=
  let fin := finishedInPacket cs
  match fin with
  | [] => (.yield_ resp, acc)
  | (_, fr0, _) :: _ =>
    if fr0 = "stop" then
      if finishedCount acc < n then
        let cs' := cs.map (fun c =>
          if finishTruthy c.finish_reason then { c with finish_reason := some "null" }
          else c)
        (.yield_ (setChoices resp cs'), acc)
      else
        let entries := acc.choices.map (fun p =>
          (p.1, { p.2 with all_choices_sent := true }))
        let finals := (sortByIdx entries).map buildFinalChoice
        let resp1 := setChoices resp finals
        let resp2 :=
          match acc.usage_by_index with
          | some m =>
            if !m.isEmpty then { resp1 with usage := some (aggregateUsage m) }
            else resp1
          | none => resp1
        (.yield_ resp2, { acc with choices := entries })
    else
      let (entries, outs) := fanOutGo acc.usage_by_index fin acc.choices resp []
      if !outs.isEmpty then (.multi outs, { acc with choices := entries })
      else (.filtered resp, { acc with choices := entries })

/-- The scalar-text accumulation path (`message_utils.py:46-67`), taken
when the output has a `text` field and `choices` is null or empty. -/
def textPath (resp : Response) (o : Output) (acc : Accumulator) :
    MergeResult × Accumulator :=
  let entries :=
    if (alistGet 0 acc.choices).isSome then acc.choices
    else alistSet 0 freshAcc acc.choices
  let e := (alistGet 0 entries).getD freshAcc
  let e' :=
    match o.text with
    | some t =>
      if t ≠ "" then
        match e.content with
        | .str s => { e with content := .str (s ++ t) }
        | .parts _ => e
          -- a list-valued accumulator can only arise from multimodal choice
          -- fragments; the scalar-text endpoints never produce one, so this
          -- cross-shape case is left unchanged
      else e
    | none => e
  let acc' := { acc with choices := alistSet 0 e' entries }
  let o' :=
    { o with text := match e'.content with | .str s => some s | .parts _ => o.text }
  (.yield_ { resp with output := some o' }, acc')

/-- The function `merge_single_response` (`message_utils.py:4-421`): merges one parsed
fragment into the accumulator and returns the yield/filter signal together
with the mutated fragment and the new accumulator state. -/
def mergeSingleResponse (resp : Response) (acc : Accumulator) (n : Nat) :
    MergeResult × Accumulator :=
  if n > 1 && accTruthy acc && allSentAll acc then (.filtered resp, acc)
  else
    let acc := trackUsage n resp acc
    match resp.output with
    | none => (.yield_ resp, acc)
    | some o =>
      if o.text.isSome && (o.choices.getD []).isEmpty then textPath resp o acc
      else
        match o.choices with
        | some cs =>
          if cs.isEmpty then
            -- the guard `if parsed_response.output.choices:` (line 70) is
            -- already false for `[]`, so the block is skipped and control
            -- reaches the final `return True` (line 421); the intended
            -- empty-choices filter at lines 73-75 is unreachable
            (.yield_ resp, acc)
          else
            let (acc1, cs') := processChoices n acc cs
            let resp1 := setChoices resp cs'
            if n > 1 then handleMulti n resp1 acc1 cs'
            else (.yield_ resp1, acc1)
        | none => (.yield_ resp, acc)

/-!  Dialog state machine (`dashscope/multimodal/dialog_state.py`). -/

/-- The `DialogState` enum. -/
inductive DialogState where
  | idle
  | listening
  | thinking
  | responding
deriving Repr, DecidableEq

/-- The enum member values. -/
def DialogState.value : DialogState → String
  | .idle => "Idle"
  | .listening => "Listening"
  | .thinking => "Thinking"
  | .responding => "Responding"

/-- The list `[state.value for state in DialogState]`. -/
def dialogStateValues : List String :=
  [DialogState.idle, DialogState.listening, DialogState.thinking,
    DialogState.responding].map DialogState.value

/-- The lookup `DialogState(new_state)`: the member whose value is the given string. -/
def dialogStateOfValue (s : String) : Option DialogState :=
  [DialogState.idle, DialogState.listening, DialogState.thinking,
    DialogState.responding].find? (fun d => d.value = s)

/-- The state machine object; `current_state` starts at `IDLE`. -/
structure StateMachine where
  current_state : DialogState
deriving Repr, DecidableEq

/-- The constructor `StateMachine.__init__`. -/
def StateMachine.init : StateMachine := { current_state := .idle }

/-- The method `StateMachine.change_state` (`dialog_state.py:34-47`): sets the state
for one of the four member values, otherwise raises `ValueError`
(embedded as `Except.error` with the raised message). -/
def StateMachine.change_state (m : StateMachine) (new_state : String) :
    Except String StateMachine :=
  if new_state ∈ dialogStateValues then
    match dialogStateOfValue new_state with
    | some d => .ok { m with current_state := d }
    | none => .error "无效的状态类型"
  else
    .error "无效的状态类型"

/-!  Session lifecycle of `TranslationRecognizerRealtime`
(`dashscope/audio/asr/translation_recognizer.py`).  Only the state the
lifecycle guards read and write is embedded: the `_running` flag, the
outbound buffer queue, the silence timer's liveness, callback presence,
and an invocation counter for `on_close`.  Exceptions leave the object
unchanged, mirroring Python raising before any mutation. -/

/-- The SDK error raised on lifecycle misuse. -/
inductive DSError where
  | invalidParameter (msg : String)
deriving Repr, DecidableEq

/-- The session state read and written by `send_audio_frame` and `stop`.
Buffers are byte strings, embedded as lists of byte values. -/
structure TRRealtime where
  running : Bool
  stream_data : List (List Nat)
  silence_timer_alive : Bool
  has_callback : Bool
  on_close_count : Nat
  start_stream_timestamp : Int
deriving Repr, DecidableEq

/-- The method `TranslationRecognizerRealtime.send_audio_frame`
(`translation_recognizer.py:617-630`): raises `InvalidParameter` when the
session is not running, otherwise stamps the stream start (first frame
only) and enqueues the buffer; the unbounded queue never blocks.  `now`
stands for `time.time() * 1000`. -/
def TRRealtime.send_audio_frame (st : TRRealtime) (buffer : List Nat)
    (now : Int) : Option DSError × TRRealtime :=
  if st.running = false then
    (some (.invalidParameter "TranslationRecognizerRealtime has stopped."), st)
  else
    let st :=
      if st.start_stream_timestamp < 0 then
        { st with start_stream_timestamp := now }
      else st
    (none, { st with stream_data := st.stream_data ++ [buffer] })

/-- The method `TranslationRecognizerRealtime.stop`
(`translation_recognizer.py:595-615`): raises `InvalidParameter` when not
running; otherwise clears `_running`, joins the worker, resets the queue,
cancels the silence timer and invokes `on_close` once when a callback is
installed. -/
def TRRealtime.stop (st : TRRealtime) : Option DSError × TRRealtime :=
  if st.running = false then
    (some (.invalidParameter "TranslationRecognizerRealtime has stopped."), st)
  else
    let inc : Nat := if st.has_callback then 1 else 0
    let st' :=
      { st with
        running := false
        stream_data := []
        silence_timer_alive := false
        on_close_count := st.on_close_count + inc }
    (none, st')

/-!  Streams, accessors and canonical fragments used by the properties. -/

/-- Fold a caller's fragment stream through `mergeSingleResponse`,
collecting each call's signal, exactly as the generator wrappers do. -/
def mergeStream (n : Nat) (acc : Accumulator) :
    List Response → List MergeResult × Accumulator
  | [] => ([], acc)
  | f :: t =>
    let (r, a) := mergeSingleResponse f acc n
    let (rs, a') := mergeStream n a t
    (r :: rs, a')

/-- Whether the merge signalled a normal yield (Python `True`). -/
def MergeResult.isYield : MergeResult → Bool
  | .yield_ _ => true
  | _ => false

/-- Whether the merge filtered the fragment (Python `False`). -/
def MergeResult.isFiltered : MergeResult → Bool
  | .filtered _ => true
  | _ => false

/-- The yielded response, when the signal was a normal yield. -/
def MergeResult.respOf : MergeResult → Option Response
  | .yield_ r => some r
  | _ => none

/-- The fanned-out responses, when the signal was list-valued. -/
def MergeResult.multiOf : MergeResult → Option (List Response)
  | .multi rs => some rs
  | _ => none

/-- A response's choices array (empty when absent). -/
def choicesOf (r : Response) : List Choice :=
  match r.output with
  | some o => o.choices.getD []
  | none => []

/-- The choice indices visible in a response. -/
def respChoiceIdxs (r : Response) : List (Option Nat) :=
  (choicesOf r).map Choice.index

/-- The finish reasons visible in a response. -/
def respFinishReasons (r : Response) : List (Option String) :=
  (choicesOf r).map Choice.finish_reason

/-- The message contents visible in a response. -/
def respContents (r : Response) : List (Option Content) :=
  (choicesOf r).map (fun c => c.message.bind Message.content)

/-- A delta message carrying only string content. -/
def mkDeltaMsg (d : String) : Message :=
  { role := none
    content := some (.str d)
    reasoning_content := none
    tool_calls := none }

/-- A choice element with index `k`, the given message and finish reason,
and no logprobs. -/
def mkChoiceC (k : Nat) (msg : Message) (fr : Option String) : Choice :=
  { index := some k
    message := some msg
    logprobs := none
    finish_reason := fr }

/-- An output object carrying only a choices array. -/
def mkOutput (cs : List Choice) : Output :=
  { text := none, choices := some cs }

/-- A fragment carrying one string content delta for choice `k`. -/
def mkDelta (k : Nat) (d : String) : Response :=
  { output := some (mkOutput [mkChoiceC k (mkDeltaMsg d) none]), usage := none }

/-- A usage dict with input, output, and total counters. -/
def mkUsage (i o : Nat) : Usage :=
  { input_tokens := some i
    output_tokens := some o
    total_tokens := some (i + o)
    prompt_tokens_details := none }

/-- A content-delta fragment for choice `k` carrying usage. -/
def mkDeltaU (k : Nat) (d : String) (u : Usage) : Response :=
  { output := some (mkOutput [mkChoiceC k (mkDeltaMsg d) none]), usage := some u }

/-- A completion fragment for choice `k` with the given finish reason and
usage (the terminal chunk carries an empty content delta). -/
def mkFinish (k : Nat) (fr : String) (u : Usage) : Response :=
  { output := some (mkOutput [mkChoiceC k (mkDeltaMsg "") (some fr)])
    usage := some u }

/-- A completion fragment for choice `k` without usage counters. -/
def mkFinishNU (k : Nat) (fr : String) : Response :=
  { output := some (mkOutput [mkChoiceC k (mkDeltaMsg "") (some fr)])
    usage := none }

/-- A message carrying only one tool-call delta. -/
def mkToolMsg (tc : ToolCall) : Message :=
  { role := none
    content := none
    reasoning_content := none
    tool_calls := some [tc] }

/-- A fragment whose single choice (index 0) carries one tool-call delta. -/
def mkToolFrag (tc : ToolCall) : Response :=
  { output := some (mkOutput [mkChoiceC 0 (mkToolMsg tc) none]), usage := none }

/-- The three tool-call delta fragments of the specification's
accumulation example. -/
def c4Call1 : ToolCall :=
  { index := some 0, id := none, ctype := none,
    function := some { name := some "get_", arguments := none, extra := [] } }

/-- Second delta: the opening half of the JSON arguments. -/
def c4Call2 : ToolCall :=
  { index := some 0, id := none, ctype := none,
    function := some { name := none, arguments := some "\x7b\"a\"", extra := [] } }

/-- Third delta: the closing half of the JSON arguments. -/
def c4Call3 : ToolCall :=
  { index := some 0, id := none, ctype := none,
    function := some { name := none, arguments := some ":1\x7d", extra := [] } }

/-- The expected accumulated tool call for the C4 example. -/
def c4Expected : ToolCall :=
  { index := some 0
    id := none
    ctype := none
    function := some { name := some "get_", arguments := some "\x7b\"a\":1\x7d", extra := [] } }

/-- An accumulated call with `id` and `type` already set. -/
def c4Prev : ToolCall :=
  { index := some 0
    id := some "a1"
    ctype := some "function"
    function := some { name := some "f", arguments := none, extra := [] } }

/-- A later delta for the same call carrying a new truthy `id`. -/
def c4Next : ToolCall :=
  { index := some 0
    id := some "a2"
    ctype := none
    function := some { name := none, arguments := some "()", extra := [] } }

/-- The merge of `c4Prev` and `c4Next`: concatenated `arguments`, the new
`id` (last write wins), the retained `type`. -/
def c4Merged : ToolCall :=
  { index := some 0
    id := some "a2"
    ctype := some "function"
    function := some { name := some "f", arguments := some "()", extra := [] } }

/-- A fragment whose output carries an empty `choices` array and no scalar
text field. -/
def emptyChoicesFrag : Response :=
  { output := some { text := none, choices := some [] }, usage := none }

/-!  The cumulative-merge property of single-choice text streams. -/

/-- Concatenation of a list of deltas. -/
def strConcat : List String → String
  | [] => ""
  | s :: t => s ++ strConcat t

/-- The accumulator after absorbing string content `s` for choice 0. -/
def accD (s : String) : Accumulator :=
  { choices := [(0, { freshAcc with content := .str s })], usage_by_index := none }

/-- The signals produced by a delta stream starting from accumulated
content `s`: each fragment is yielded carrying the full concatenation so
far. -/
def deltaOutputs (s : String) : List String → List MergeResult
  | [] => []
  | d :: t => .yield_ (mkDelta 0 (s ++ d)) :: deltaOutputs (s ++ d) t

/-- An accumulator in which choice 0 already finished with `stop` and
choice 1 is still running. -/
def c5Acc : Accumulator :=
  { choices := [(0, { freshAcc with finished := true, finish_reason := some "stop" }),
      (1, freshAcc)]
    usage_by_index := none }

/-!  Parameterized `n = 2` streams exercising the completion policies. -/

/-- A per-choice entry that has absorbed content `s` and not finished. -/
def runEntry (s : String) : AccChoice := { freshAcc with content := .str s }

/-- An entry finished with `stop` but not yet sent. -/
def stopEntry (s : String) : AccChoice :=
  { freshAcc with
    content := .str s
    finished := true
    finish_reason := some "stop" }

/-- An entry finished with `stop` and marked sent. -/
def sentStopEntry (s : String) : AccChoice :=
  { freshAcc with
    content := .str s
    finished := true
    finish_reason := some "stop"
    all_choices_sent := true }

/-- The message of a synthesized final choice. -/
def finalMsg (s : String) : Message :=
  { role := some "assistant"
    content := some (.str s)
    reasoning_content := none
    tool_calls := none }

/-- A synthesized final choice with reason `stop`. -/
def stopChoice (k : Nat) (s : String) : Choice :=
  { index := some k
    message := some (finalMsg s)
    logprobs := none
    finish_reason := some "stop" }

/-- An aggregated usage record: shared input, summed output, recomputed
total. -/
def aggUsage (i total : Nat) : Usage :=
  { input_tokens := some i
    output_tokens := some total
    total_tokens := some (i + total)
    prompt_tokens_details := none }

/-- The synthesized final fragment of the two-choice `stop` stream. -/
def c2FinalResp (a b : String) (i o3 o4 : Nat) : Response :=
  { output := some (mkOutput [stopChoice 0 a, stopChoice 1 b])
    usage := some (aggUsage i (o4 + o3)) }

/-- A completion fragment whose `finish_reason` the barrier rewrote to
`"null"`, carrying the accumulated content. -/
def hiddenFinishResp (k : Nat) (s : String) (u : Usage) : Response :=
  { output := some (mkOutput [mkChoiceC k (mkDeltaMsg s) (some "null")])
    usage := some u }

/-- An entry finished with `tool_calls` but not yet sent. -/
def toolEntry (s : String) : AccChoice :=
  { freshAcc with
    content := .str s
    finished := true
    finish_reason := some "tool_calls" }

/-- An entry finished with `tool_calls` and marked sent. -/
def sentToolEntry (s : String) : AccChoice :=
  { freshAcc with
    content := .str s
    finished := true
    finish_reason := some "tool_calls"
    all_choices_sent := true }

/-- The single-choice response a `tool_calls` fan-out emits: the finishing
choice with its accumulated content and its own usage. -/
def toolFanResp (k : Nat) (s : String) (u : Usage) : Response :=
  { output := some (mkOutput [mkChoiceC k (mkDeltaMsg s) (some "tool_calls")])
    usage := some u }

/-- C4: tool-call deltas sharing tool-call index 0 accumulate
`function.name` and `function.arguments` by concatenation in arrival
order — the spec's three fragments accumulate to `name = "get_"`,
`arguments = "\x7b\"a\":1\x7d"` — while non-string fields (`id`, `type`)
merge last-write-wins. -/
theorem c4_toolcall_accumulation :
    (alistGet 0 (mergeStream 1 emptyAcc
        [mkToolFrag c4Call1, mkToolFrag c4Call2, mkToolFrag c4Call3]).2.choices).map
        AccChoice.tool_calls = some [c4Expected]
    ∧ mergeToolCall c4Prev c4Next = c4Merged := by
  decide

/-- C6: at the empty-choices fragment the code does NOT return the
not-yield signal: the guard `if parsed_response.output.choices:`
(line 70) is already false for `[]`, so the intended filter at lines
73-75 is unreachable and the function falls through to `return True`,
forwarding the fragment unchanged (the accumulator is indeed left
untouched). -/
theorem c6_empty_choices_forwarded :
    mergeSingleResponse emptyChoicesFrag emptyAcc 1 =
      (.yield_ emptyChoicesFrag, emptyAcc)
    ∧ (mergeSingleResponse emptyChoicesFrag emptyAcc 2).1.isFiltered = false := by
  decide

/-- C7: `StateMachine.change_state` raises `ValueError` exactly for
strings outside the four dialog-state values, and for a member value it
sets `current_state` to the corresponding `DialogState`. -/
theorem c7_change_state_validation (m : StateMachine) (s : String) :
    ((∃ m', m.change_state s = .ok m') ↔ s ∈ dialogStateValues)
    ∧ (m.change_state s = .error "无效的状态类型" ↔ s ∉ dialogStateValues)
    ∧ (∀ d : DialogState, s = d.value →
        m.change_state s = .ok { current_state := d }) := by
  have key : ∀ d : DialogState, m.change_state d.value = .ok { current_state := d } := by
    intro d
    cases d <;> rfl
  have okOfMem : s ∈ dialogStateValues → ∃ m', m.change_state s = .ok m' := by
    intro hin
    have hs : s = "Idle" ∨ s = "Listening" ∨ s = "Thinking" ∨ s = "Responding" := by
      simpa [dialogStateValues, DialogState.value] using hin
    rcases hs with h1 | h1 | h1 | h1 <;> subst h1
    · exact ⟨_, key .idle⟩
    · exact ⟨_, key .listening⟩
    · exact ⟨_, key .thinking⟩
    · exact ⟨_, key .responding⟩
  refine ⟨⟨?_, okOfMem⟩, ⟨?_, ?_⟩, fun d hd => by rw [hd]; exact key d⟩
  · rintro ⟨m', hm⟩
    by_contra hn
    rw [StateMachine.change_state, if_neg hn] at hm
    exact Except.noConfusion hm
  · intro he hin
    rcases okOfMem hin with ⟨m', hm⟩
    rw [hm] at he
    exact Except.noConfusion he
  · intro hn
    rw [StateMachine.change_state, if_neg hn]

/-- C7 witness: the validation behaviour at the concrete input
`"Thinking"` from the initial state. -/
theorem c7_change_state_validation_witness :
    ((∃ m', StateMachine.init.change_state "Thinking" = .ok m') ↔
        "Thinking" ∈ dialogStateValues)
    ∧ (StateMachine.init.change_state "Thinking" = .error "无效的状态类型" ↔
        "Thinking" ∉ dialogStateValues)
    ∧ (∀ d : DialogState, "Thinking" = d.value →
        StateMachine.init.change_state "Thinking" = .ok { current_state := d }) :=
  c7_change_state_validation StateMachine.init "Thinking"

/-- C8: `send_audio_frame` on a stopped session raises `InvalidParameter`
("already stopped") and leaves the session — in particular its queue —
untouched; on a running session it enqueues the buffer (the unbounded
queue's `put` never blocks) and the session stays running. -/
theorem c8_send_audio_frame_guard (st : TRRealtime) (buffer : List Nat) (now : Int) :
    (st.running = false →
      st.send_audio_frame buffer now =
        (some (.invalidParameter "TranslationRecognizerRealtime has stopped."), st))
    ∧ (st.running = true →
      (st.send_audio_frame buffer now).1 = none
      ∧ (st.send_audio_frame buffer now).2.stream_data = st.stream_data ++ [buffer]
      ∧ (st.send_audio_frame buffer now).2.running = true) := by
  constructor
  · intro h
    rw [TRRealtime.send_audio_frame, if_pos h]
  · intro h
    rw [TRRealtime.send_audio_frame]
    rw [if_neg (by simp [h])]
    by_cases hts : st.start_stream_timestamp < 0 <;>
      simp [hts, h]

/-- C8 witness: the guard at a concrete stopped session and the enqueue at
a concrete running session. -/
theorem c8_send_audio_frame_guard_witness :
    ((false : Bool) = false →
      TRRealtime.send_audio_frame ⟨false, [], false, true, 0, 0⟩ [9, 9] 5 =
        (some (.invalidParameter "TranslationRecognizerRealtime has stopped."),
          ⟨false, [], false, true, 0, 0⟩))
    ∧ ((false : Bool) = true →
      (TRRealtime.send_audio_frame ⟨false, [], false, true, 0, 0⟩ [9, 9] 5).1 = none
      ∧ (TRRealtime.send_audio_frame ⟨false, [], false, true, 0, 0⟩ [9, 9] 5).2.stream_data
          = [] ++ [[9, 9]]
      ∧ (TRRealtime.send_audio_frame ⟨false, [], false, true, 0, 0⟩ [9, 9] 5).2.running
          = true) :=
  c8_send_audio_frame_guard ⟨false, [], false, true, 0, 0⟩ [9, 9] 5

/-- C9 counterexample: a second `stop()` after a successful first one DOES
raise — `stop` re-raises `InvalidParameter` whenever `_running` is false,
so the claim that a second `stop()` does not raise fails on the started
session `⟨true, [[1]], true, true, 0, 0⟩`. -/
theorem c9_second_stop_raises :
    ((TRRealtime.stop ⟨true, [[1]], true, true, 0, 0⟩).2.stop).1 =
      some (.invalidParameter "TranslationRecognizerRealtime has stopped.") := by
  decide

/-- C9 (amended): the first `stop()` of a running session succeeds and
invokes `on_close` exactly once (when a callback is installed); a second
`stop()` raises the well-defined `InvalidParameter` error — it does not
crash in an uncontrolled way — and does not invoke `on_close` a second
time, leaving the session state unchanged. -/
theorem c9_double_stop_behaviour (st : TRRealtime) (h : st.running = true) :
    (st.stop).1 = none
    ∧ (st.stop).2.on_close_count =
        st.on_close_count + (if st.has_callback then 1 else 0)
    ∧ ((st.stop).2.stop).1 =
        some (.invalidParameter "TranslationRecognizerRealtime has stopped.")
    ∧ ((st.stop).2.stop).2 = (st.stop).2 := by
  rw [TRRealtime.stop]
  rw [if_neg (by simp [h])]
  simp [TRRealtime.stop]

/-- C9 witness: the double-stop behaviour at a concrete started session
with a callback installed. -/
theorem c9_double_stop_behaviour_witness :
    (TRRealtime.stop ⟨true, [[1]], true, true, 0, 0⟩).1 = none
    ∧ (TRRealtime.stop ⟨true, [[1]], true, true, 0, 0⟩).2.on_close_count =
        0 + (if true then 1 else 0)
    ∧ ((TRRealtime.stop ⟨true, [[1]], true, true, 0, 0⟩).2.stop).1 =
        some (.invalidParameter "TranslationRecognizerRealtime has stopped.")
    ∧ ((TRRealtime.stop ⟨true, [[1]], true, true, 0, 0⟩).2.stop).2 =
        (TRRealtime.stop ⟨true, [[1]], true, true, 0, 0⟩).2 :=
  c9_double_stop_behaviour ⟨true, [[1]], true, true, 0, 0⟩ rfl

/-- One delta fragment against accumulated content `s` yields the
concatenation and stores it. -/
theorem mergeSingleResponse_delta (s d : String) :
    mergeSingleResponse (mkDelta 0 d) (accD s) 1 =
      (.yield_ (mkDelta 0 (s ++ d)), accD (s ++ d)) := by
  by_cases hd : d = ""
  · subst hd
    rw [String.append_empty]
    rfl
  · simp [mergeSingleResponse, trackUsage, textPath, processChoices, processChoicesGo,
      processChoice, processMessage, mergeContent, contentTruthy, alistGet, alistSet,
      freshAcc, accD, mkDelta, mkChoiceC, mkDeltaMsg, mkOutput, setChoices, strTruthy,
      finishTruthy, hd, MergeResult.yield_.injEq]

/-- The first delta fragment against a fresh accumulator yields itself and
creates the choice-0 entry. -/
theorem mergeSingleResponse_delta_empty (d : String) :
    mergeSingleResponse (mkDelta 0 d) emptyAcc 1 =
      (.yield_ (mkDelta 0 d), accD d) := by
  by_cases hd : d = ""
  · subst hd
    rfl
  · simp [mergeSingleResponse, trackUsage, textPath, processChoices, processChoicesGo,
      processChoice, processMessage, mergeContent, contentTruthy, alistGet, alistSet,
      freshAcc, emptyAcc, accD, mkDelta, mkChoiceC, mkDeltaMsg, mkOutput, setChoices,
      strTruthy, finishTruthy, hd]

/-- Running a delta stream from accumulated content `s` yields the prefix
concatenations and ends with everything concatenated. -/
theorem mergeStream_deltas (s : String) (ds : List String) :
    mergeStream 1 (accD s) (ds.map (mkDelta 0)) =
      (deltaOutputs s ds, accD (s ++ strConcat ds)) := by
  induction ds generalizing s with
  | nil => simp [mergeStream, deltaOutputs, strConcat, String.append_empty]
  | cons d t ih =>
    simp only [List.map_cons, mergeStream, mergeSingleResponse_delta, deltaOutputs]
    rw [ih (s ++ d)]
    simp [strConcat, String.append_assoc]

/-- The `i`-th signal of a delta stream carries the concatenation of the
first `i + 1` deltas appended to the starting content. -/
theorem deltaOutputs_get (s : String) (ds : List String) (i : Nat) (h : i < ds.length) :
    (deltaOutputs s ds)[i]? =
      some (.yield_ (mkDelta 0 (s ++ strConcat (ds.take (i + 1))))) := by
  induction ds generalizing s i with
  | nil => simp at h
  | cons d t ih =>
    cases i with
    | zero =>
      simp [deltaOutputs, strConcat, String.append_empty]
    | succ j =>
      have hj : j < t.length := by simpa using h
      simp only [deltaOutputs, List.getElem?_cons_succ]
      rw [ih (s ++ d) j hj]
      simp [strConcat, String.append_assoc]

/-- C1: for a stream of string text deltas `d1..dn` on one choice, the
`i`-th merge call yields a fragment whose visible content is the full
concatenation `d1 ++ ... ++ d(i+1)` (never the raw delta), and replaying
the same fragments against two independent fresh accumulators produces
identical results. -/
theorem c1_cumulative_delta_merge (ds : List String) (i : Nat) (h : i < ds.length) :
    (mergeStream 1 emptyAcc (ds.map (mkDelta 0))).1[i]? =
      some (.yield_ (mkDelta 0 (strConcat (ds.take (i + 1)))))
    ∧ ∀ a1 a2 : Accumulator, a1 = emptyAcc → a2 = emptyAcc →
        mergeStream 1 a1 (ds.map (mkDelta 0)) = mergeStream 1 a2 (ds.map (mkDelta 0)) := by
  constructor
  · cases ds with
    | nil => simp at h
    | cons d t =>
      simp only [List.map_cons, mergeStream, mergeSingleResponse_delta_empty]
      rw [mergeStream_deltas d t]
      cases i with
      | zero => simp [strConcat, String.append_empty]
      | succ j =>
        have hj : j < t.length := by simpa using h
        simp only [List.getElem?_cons_succ]
        rw [deltaOutputs_get d t j hj]
        simp [strConcat]
  · intro a1 a2 h1 h2
    rw [h1, h2]

/-- C1 witness: the property at the concrete stream `["ab", "c"]`, index 1:
the second call yields content `"abc"`. -/
theorem c1_cumulative_delta_merge_witness :
    ((1 : Nat) < (["ab", "c"] : List String).length)
    ∧ ((mergeStream 1 emptyAcc (["ab", "c"].map (mkDelta 0))).1[1]? =
        some (.yield_ (mkDelta 0 (strConcat (["ab", "c"].take 2))))
      ∧ ∀ a1 a2 : Accumulator, a1 = emptyAcc → a2 = emptyAcc →
          mergeStream 1 a1 (["ab", "c"].map (mkDelta 0)) =
            mergeStream 1 a2 (["ab", "c"].map (mkDelta 0))) :=
  ⟨by decide, c1_cumulative_delta_merge ["ab", "c"] 1 (by decide)⟩

/-- C10: with `n = 1` every fragment — whatever its shape, including ones
carrying a `finish_reason` — produces the normal yield signal: the
not-yield (`False`) and list-valued returns are unreachable. -/
theorem c10_single_choice_always_yields (resp : Response) (acc : Accumulator) :
    (mergeSingleResponse resp acc 1).1.isYield = true := by
  simp only [mergeSingleResponse]
  simp only [show (decide (1 > 1)) = false from rfl, Bool.false_and]
  simp only [if_neg (by simp : ¬(false = true))]
  split
  · rfl
  · split
    · simp [textPath, MergeResult.isYield]
    · split
      · split
        · rfl
        · simp [MergeResult.isYield]
      · rfl

/-- Assignment at one key leaves lookups at other keys unchanged. -/
theorem alistGet_set_ne {α : Type} (k j : Nat) (hj : j ≠ k) (v : α)
    (m : List (Nat × α)) : alistGet j (alistSet k v m) = alistGet j m := by
  induction m with
  | nil => simp [alistGet, alistSet, Ne.symm hj]
  | cons p t ih =>
    obtain ⟨i, w⟩ := p
    by_cases hik : i = k
    · subst hik
      simp [alistSet, alistGet, Ne.symm hj]
    · simp [alistSet, hik, alistGet, ih]

/-- Usage tracking never touches the per-choice entries. -/
theorem trackUsage_choices (n : Nat) (resp : Response) (acc : Accumulator) :
    (trackUsage n resp acc).choices = acc.choices := by
  unfold trackUsage
  split
  · split
    · split
      · split <;> rfl
      · rfl
    · rfl
  · rfl

/-- Every optional entry equals itself with its flag rewritten to its own
value (or any value when absent). -/
theorem optionSelfMap (o : Option AccChoice) :
    ∃ b, o = o.map (fun e => { e with all_choices_sent := b }) := by
  cases o with
  | none => exact ⟨true, rfl⟩
  | some e => exact ⟨e.all_choices_sent, rfl⟩

/-- Processing a choice with explicit index `k` leaves entries of other
indices unchanged. -/
theorem processChoice_preserves (n : Nat) (acc : Accumulator) (i : Nat)
    (c : Choice) (k j : Nat) (hc : c.index = some k) (hj : j ≠ k) :
    alistGet j (processChoice n acc i c).1.choices = alistGet j acc.choices := by
  simp only [processChoice, hc, Option.getD_some]
  by_cases hpres : (alistGet k acc.choices).isSome
  · simp only [hpres, if_true]
    exact alistGet_set_ne k j hj _ _
  · simp only [hpres, Bool.false_eq_true, if_false]
    rw [alistGet_set_ne k j hj, alistGet_set_ne k j hj]

/-- Processing never changes a choice element's `index` field. -/
theorem processChoice_index (n : Nat) (acc : Accumulator) (i : Nat) (c : Choice) :
    (processChoice n acc i c).2.index = c.index := by
  simp only [processChoice]
  repeat' split
  all_goals rfl

/-- The choices loop over index-`k` fragments leaves entries of other
indices unchanged. -/
theorem processChoicesGo_preserves (n : Nat) (cs : List Choice) (k j : Nat)
    (hall : ∀ c ∈ cs, c.index = some k) (hj : j ≠ k) :
    ∀ (acc : Accumulator) (i : Nat),
      alistGet j (processChoicesGo n acc i cs).1.choices = alistGet j acc.choices := by
  induction cs with
  | nil => intro acc i; rfl
  | cons c t ih =>
    intro acc i
    have hc := hall c (by simp)
    have hrest : ∀ x ∈ t, x.index = some k := fun x hx => hall x (by simp [hx])
    simp only [processChoicesGo]
    rcases hp : processChoice n acc i c with ⟨acc1, c'⟩
    rcases hq : processChoicesGo n acc1 (i + 1) t with ⟨acc2, t'⟩
    simp only [hp, hq]
    have e1 : alistGet j acc1.choices = alistGet j acc.choices := by
      have h := processChoice_preserves n acc i c k j hc hj
      rw [hp] at h
      exact h
    have e2 : alistGet j acc2.choices = alistGet j acc1.choices := by
      have h := ih hrest acc1 (i + 1)
      rw [hq] at h
      exact h
    exact e2.trans e1

/-- The choices loop preserves the sequence of choice indices. -/
theorem processChoicesGo_indexes (n : Nat) (cs : List Choice) :
    ∀ (acc : Accumulator) (i : Nat),
      ((processChoicesGo n acc i cs).2).map Choice.index = cs.map Choice.index := by
  induction cs with
  | nil => intro acc i; rfl
  | cons c t ih =>
    intro acc i
    simp only [processChoicesGo]
    rcases hp : processChoice n acc i c with ⟨acc1, c'⟩
    rcases hq : processChoicesGo n acc1 (i + 1) t with ⟨acc2, t'⟩
    simp only [hp, hq, List.map_cons]
    have e1 : c'.index = c.index := by
      have h := processChoice_index n acc i c
      rw [hp] at h
      exact h
    have e2 : t'.map Choice.index = t.map Choice.index := by
      have h := ih acc1 (i + 1)
      rw [hq] at h
      exact h
    rw [e1, e2]

/-- Looking up under the mark-all-sent map is the mapped lookup. -/
theorem alistGet_map_set (m : List (Nat × AccChoice)) (j : Nat) :
    alistGet j (m.map (fun p => (p.1, { p.2 with all_choices_sent := true }))) =
      (alistGet j m).map (fun e => { e with all_choices_sent := true }) := by
  induction m with
  | nil => rfl
  | cons p t ih =>
    obtain ⟨i, w⟩ := p
    by_cases hij : i = j
    · simp [alistGet, hij]
    · simp [alistGet, hij, ih]

/-- The fan-out loop over index-`k` emissions leaves entries of other
indices unchanged. -/
theorem fanOutGo_preserves (ub : Option (List (Nat × Usage))) (k j : Nat)
    (hj : j ≠ k) (items : List (Nat × String × Choice))
    (hitems : ∀ p ∈ items, p.1 = k) :
    ∀ (entries : List (Nat × AccChoice)) (base : Response) (outs : List Response),
      alistGet j (fanOutGo ub items entries base outs).1 = alistGet j entries := by
  induction items with
  | nil => intro entries base outs; rfl
  | cons p rest ih =>
    intro entries base outs
    obtain ⟨idx, fr, ch⟩ := p
    have hrest : ∀ q ∈ rest, q.1 = k := fun q hq => hitems q (by simp [hq])
    have hpk : idx = k := hitems (idx, fr, ch) (by simp)
    subst hpk
    simp only [fanOutGo]
    cases hd : alistGet idx entries with
    | none => exact ih hrest entries base outs
    | some d =>
      by_cases hsent : d.all_choices_sent = true
      · simp only [hsent, if_true]
        exact ih hrest entries base outs
      · simp only [hsent, Bool.false_eq_true, if_false]
        rw [ih hrest]
        exact alistGet_set_ne idx j hj _ _

/-- When every choice carries index `k`, so does every finished-packet
entry. -/
theorem finishedInPacket_keys (cs : List Choice) (k : Nat)
    (hall : ∀ c ∈ cs, c.index = some k) :
    ∀ q ∈ finishedInPacket cs, q.1 = k := by
  intro q hq
  unfold finishedInPacket at hq
  rw [List.mem_filterMap] at hq
  obtain ⟨c, hc, he⟩ := hq
  by_cases hf : finishTruthy c.finish_reason = true
  · rw [if_pos hf] at he
    cases he
    simp [hall c hc]
  · rw [if_neg hf] at he
    cases he

/-- The `n > 1` completion policy changes a sibling entry at most in its
`all_choices_sent` flag. -/
theorem handleMulti_entry (n : Nat) (resp : Response) (acc : Accumulator)
    (cs : List Choice) (k j : Nat) (hall : ∀ c ∈ cs, c.index = some k)
    (hj : j ≠ k) :
    ∃ b, alistGet j (handleMulti n resp acc cs).2.choices =
      (alistGet j acc.choices).map (fun e => { e with all_choices_sent := b }) := by
  unfold handleMulti
  cases hfin : finishedInPacket cs with
  | nil => exact optionSelfMap _
  | cons p rest =>
    obtain ⟨idx0, fr0, c0⟩ := p
    simp only
    by_cases hstop : fr0 = "stop"
    · rw [if_pos hstop]
      by_cases hcnt : finishedCount acc < n
      · rw [if_pos hcnt]
        exact optionSelfMap _
      · rw [if_neg hcnt]
        exact ⟨true, alistGet_map_set acc.choices j⟩
    · rw [if_neg hstop]
      have hitems : ∀ q ∈ (idx0, fr0, c0) :: rest, q.1 = k := by
        rw [← hfin]
        exact finishedInPacket_keys cs k hall
      have hpre := fanOutGo_preserves acc.usage_by_index k j hj
        ((idx0, fr0, c0) :: rest) hitems acc.choices resp []
      rcases hfo : fanOutGo acc.usage_by_index ((idx0, fr0, c0) :: rest)
        acc.choices resp [] with ⟨entries, outs⟩
      rw [hfo] at hpre
      simp only [hfo]
      have hsame : (if (!outs.isEmpty) = true then
          ((MergeResult.multi outs), { acc with choices := entries })
          else ((MergeResult.filtered resp), { acc with choices := entries })).2.choices
          = entries := by
        split <;> rfl
      rw [hsame, hpre]
      exact optionSelfMap _

/-- C5 (amended): a fragment whose non-empty choices all carry choice
index `k` leaves the accumulator entry of every other index `j ≠ k`
unchanged except possibly for its `all_choices_sent` flag — which the
`n > 1` all-finished `stop` completion path sets on every entry; absent
entries stay absent, and no other field of a sibling entry ever changes. -/
theorem c5_choice_isolation (n : Nat) (resp : Response) (acc : Accumulator)
    (o : Output) (cs : List Choice) (k j : Nat)
    (hro : resp.output = some o) (hcs : o.choices = some cs) (hne : cs ≠ [])
    (hidx : ∀ c ∈ cs, c.index = some k) (hj : j ≠ k) :
    ∃ b, alistGet j (mergeSingleResponse resp acc n).2.choices =
      (alistGet j acc.choices).map (fun e => { e with all_choices_sent := b }) := by
  have hcse : cs.isEmpty = false := by
    cases cs with
    | nil => exact absurd rfl hne
    | cons a b => rfl
  unfold mergeSingleResponse
  by_cases hearly : (n > 1 && accTruthy acc && allSentAll acc) = true
  · rw [if_pos hearly]
    exact optionSelfMap _
  · rw [if_neg hearly]
    simp only [hro, hcs, Option.getD_some, hcse, Bool.and_false, Bool.false_eq_true,
      if_false]
    have hp1 : alistGet j (processChoices n (trackUsage n resp acc) cs).1.choices
        = alistGet j acc.choices := by
      have h := processChoicesGo_preserves n cs k j hidx hj (trackUsage n resp acc) 0
      rw [trackUsage_choices] at h
      exact h
    have hidx2 : ∀ c' ∈ (processChoices n (trackUsage n resp acc) cs).2,
        c'.index = some k := by
      intro c' hc'
      have hmap := processChoicesGo_indexes n cs (trackUsage n resp acc) 0
      have hmem : c'.index ∈ cs.map Choice.index := by
        rw [← hmap]
        exact List.mem_map_of_mem _ hc'
      rw [List.mem_map] at hmem
      obtain ⟨c, hcmem, hce⟩ := hmem
      rw [← hce]
      exact hidx c hcmem
    by_cases hn : n > 1
    · rw [if_pos hn]
      obtain ⟨b, hb⟩ := handleMulti_entry n
        (setChoices resp (processChoices n (trackUsage n resp acc) cs).2)
        (processChoices n (trackUsage n resp acc) cs).1
        (processChoices n (trackUsage n resp acc) cs).2 k j hidx2 hj
      exact ⟨b, by rw [hb, hp1]⟩
    · rw [if_neg hn]
      show ∃ b, alistGet j (processChoices n (trackUsage n resp acc) cs).1.choices = _
      rw [hp1]
      exact optionSelfMap _

/-- C5 counterexample: the claim as stated is false — with `n = 2`, a
fragment carrying only choice index 1 (the final `stop`) mutates the
accumulator entry of choice 0: the all-finished completion path flips
its `all_choices_sent` flag. -/
theorem c5_stop_completion_mutates_sibling :
    alistGet 0 (mergeSingleResponse (mkFinishNU 1 "stop") c5Acc 2).2.choices ≠
      alistGet 0 c5Acc.choices := by
  decide

/-- C5 witness: the isolation property at a concrete index-5 fragment
against a fresh accumulator, inspected at index 0. -/
theorem c5_choice_isolation_witness :
    ∃ b, alistGet 0 (mergeSingleResponse (mkDelta 5 "x") emptyAcc 1).2.choices =
      (alistGet 0 emptyAcc.choices).map (fun e => { e with all_choices_sent := b }) :=
  c5_choice_isolation 1 (mkDelta 5 "x") emptyAcc
    (mkOutput [mkChoiceC 5 (mkDeltaMsg "x") none])
    [mkChoiceC 5 (mkDeltaMsg "x") none] 5 0 rfl rfl (by decide) (by decide) (by decide)

/-- The first delta of the `stop` stream (choice 1) creates its entry and
records its usage. -/
theorem c2step1 (b : String) (i o1 : Nat) :
    mergeSingleResponse (mkDeltaU 1 b (mkUsage i o1)) emptyAcc 2 =
      (.yield_ (mkDeltaU 1 b (mkUsage i o1)),
        ⟨[(1, runEntry b)], some [(1, mkUsage i o1)]⟩) := by
  by_cases hb : b = ""
  · subst hb
    rfl
  · simp [mergeSingleResponse, trackUsage, textPath, processChoices, processChoicesGo,
      processChoice, processMessage, mergeContent, contentTruthy, alistGet, alistSet,
      freshAcc, emptyAcc, runEntry, mkDeltaU, mkUsage, mkChoiceC, mkDeltaMsg, mkOutput,
      setChoices, strTruthy, finishTruthy, usageTruthy, handleMulti, finishedInPacket,
      accTruthy, allSentAll, hb]

/-- The second delta (choice 0) creates the second entry, leaving the
first untouched. -/
theorem c2step2 (a b : String) (i o1 o2 : Nat) :
    mergeSingleResponse (mkDeltaU 0 a (mkUsage i o2))
        ⟨[(1, runEntry b)], some [(1, mkUsage i o1)]⟩ 2 =
      (.yield_ (mkDeltaU 0 a (mkUsage i o2)),
        ⟨[(1, runEntry b), (0, runEntry a)],
          some [(1, mkUsage i o1), (0, mkUsage i o2)]⟩) := by
  by_cases ha : a = ""
  · subst ha
    rfl
  · simp [mergeSingleResponse, trackUsage, textPath, processChoices, processChoicesGo,
      processChoice, processMessage, mergeContent, contentTruthy, alistGet, alistSet,
      freshAcc, runEntry, mkDeltaU, mkUsage, mkChoiceC, mkDeltaMsg, mkOutput,
      setChoices, strTruthy, finishTruthy, usageTruthy, handleMulti, finishedInPacket,
      accTruthy, allSentAll, ha]

/-- The first `stop` finish: the barrier hides the completion marker
(`finish_reason` becomes `"null"`) because only one of two choices has
finished. -/
theorem c2step3 (a b : String) (i o1 o2 o3 : Nat) :
    mergeSingleResponse (mkFinish 0 "stop" (mkUsage i o3))
        ⟨[(1, runEntry b), (0, runEntry a)],
          some [(1, mkUsage i o1), (0, mkUsage i o2)]⟩ 2 =
      (.yield_ (hiddenFinishResp 0 a (mkUsage i o3)),
        ⟨[(1, runEntry b), (0, stopEntry a)],
          some [(1, mkUsage i o1), (0, mkUsage i o3)]⟩) := by
  rfl

/-- The last `stop` finish: one synthesized final fragment with both
choices sorted by index and aggregated usage. -/
theorem c2step4 (a b : String) (ha : a ≠ "") (hb : b ≠ "") (i o1 o3 o4 : Nat) :
    mergeSingleResponse (mkFinish 1 "stop" (mkUsage i o4))
        ⟨[(1, runEntry b), (0, stopEntry a)],
          some [(1, mkUsage i o1), (0, mkUsage i o3)]⟩ 2 =
      (.yield_ (c2FinalResp a b i o3 o4),
        ⟨[(1, sentStopEntry b), (0, sentStopEntry a)],
          some [(1, mkUsage i o4), (0, mkUsage i o3)]⟩) := by
  simp [mergeSingleResponse, trackUsage, textPath, processChoices, processChoicesGo,
    processChoice, processMessage, mergeContent, contentTruthy, alistGet, alistSet,
    freshAcc, runEntry, stopEntry, sentStopEntry, mkFinish, mkUsage, mkChoiceC,
    mkDeltaMsg, mkOutput, setChoices, strTruthy, finishTruthy, usageTruthy,
    handleMulti, finishedInPacket, finishedCount, sortByIdx, insertSorted,
    buildFinalChoice, accContentTruthy, accContentToContent, aggregateUsage,
    accTruthy, allSentAll, stopChoice, finalMsg, aggUsage, c2FinalResp, ha, hb]

/-- C2: with `n = 2`, any delta contents and any per-choice token counts,
a `stop` stream emits no completion fragment until both choices have
reported — the first finish is forwarded with its `finish_reason`
rewritten to `"null"` — and the last report produces exactly one final
fragment holding both accumulated choices sorted by index (they were
created in order 1, 0), with `output_tokens` summed (`o4 + o3`), the
shared `input_tokens`, and `total_tokens` recomputed as their sum. -/
theorem c2_stop_barrier_and_aggregation (a b : String) (ha : a ≠ "") (hb : b ≠ "")
    (i o1 o2 o3 o4 : Nat) :
    mergeStream 2 emptyAcc
        [mkDeltaU 1 b (mkUsage i o1), mkDeltaU 0 a (mkUsage i o2),
          mkFinish 0 "stop" (mkUsage i o3), mkFinish 1 "stop" (mkUsage i o4)] =
      ([.yield_ (mkDeltaU 1 b (mkUsage i o1)),
        .yield_ (mkDeltaU 0 a (mkUsage i o2)),
        .yield_ (hiddenFinishResp 0 a (mkUsage i o3)),
        .yield_ (c2FinalResp a b i o3 o4)],
        ⟨[(1, sentStopEntry b), (0, sentStopEntry a)],
          some [(1, mkUsage i o4), (0, mkUsage i o3)]⟩) := by
  simp only [mergeStream, c2step1, c2step2, c2step3, c2step4 a b ha hb]

/-- C2 witness: the stream at contents `"A"`, `"B"` and token counts
`7 / 1, 2, 5, 9`; the final fragment carries `output_tokens = 14` and
`total_tokens = 21`. -/
theorem c2_stop_barrier_and_aggregation_witness :
    mergeStream 2 emptyAcc
        [mkDeltaU 1 "B" (mkUsage 7 1), mkDeltaU 0 "A" (mkUsage 7 2),
          mkFinish 0 "stop" (mkUsage 7 5), mkFinish 1 "stop" (mkUsage 7 9)] =
      ([.yield_ (mkDeltaU 1 "B" (mkUsage 7 1)),
        .yield_ (mkDeltaU 0 "A" (mkUsage 7 2)),
        .yield_ (hiddenFinishResp 0 "A" (mkUsage 7 5)),
        .yield_ (c2FinalResp "A" "B" 7 5 9)],
        ⟨[(1, sentStopEntry "B"), (0, sentStopEntry "A")],
          some [(1, mkUsage 7 9), (0, mkUsage 7 5)]⟩) :=
  c2_stop_barrier_and_aggregation "A" "B" (by decide) (by decide) 7 1 2 5 9

/-- The first delta of the `tool_calls` stream (choice 0). -/
theorem c3step1 (a : String) (i o1 : Nat) :
    mergeSingleResponse (mkDeltaU 0 a (mkUsage i o1)) emptyAcc 2 =
      (.yield_ (mkDeltaU 0 a (mkUsage i o1)),
        ⟨[(0, runEntry a)], some [(0, mkUsage i o1)]⟩) := by
  by_cases ha : a = ""
  · subst ha
    rfl
  · simp [mergeSingleResponse, trackUsage, textPath, processChoices, processChoicesGo,
      processChoice, processMessage, mergeContent, contentTruthy, alistGet, alistSet,
      freshAcc, emptyAcc, runEntry, mkDeltaU, mkUsage, mkChoiceC, mkDeltaMsg, mkOutput,
      setChoices, strTruthy, finishTruthy, usageTruthy, handleMulti, finishedInPacket,
      accTruthy, allSentAll, ha]

/-- The second delta (choice 1) creates the second entry. -/
theorem c3step2 (a b : String) (i o1 o2 : Nat) :
    mergeSingleResponse (mkDeltaU 1 b (mkUsage i o2))
        ⟨[(0, runEntry a)], some [(0, mkUsage i o1)]⟩ 2 =
      (.yield_ (mkDeltaU 1 b (mkUsage i o2)),
        ⟨[(0, runEntry a), (1, runEntry b)],
          some [(0, mkUsage i o1), (1, mkUsage i o2)]⟩) := by
  by_cases hb : b = ""
  · subst hb
    rfl
  · simp [mergeSingleResponse, trackUsage, textPath, processChoices, processChoicesGo,
      processChoice, processMessage, mergeContent, contentTruthy, alistGet, alistSet,
      freshAcc, runEntry, mkDeltaU, mkUsage, mkChoiceC, mkDeltaMsg, mkOutput,
      setChoices, strTruthy, finishTruthy, usageTruthy, handleMulti, finishedInPacket,
      accTruthy, allSentAll, hb]

/-- Choice 0 finishes with `tool_calls`: it is emitted at once as its own
single-choice response with its own usage, while choice 1 is still
running. -/
theorem c3step3 (a b : String) (i o1 o2 o3 : Nat) :
    mergeSingleResponse (mkFinish 0 "tool_calls" (mkUsage i o3))
        ⟨[(0, runEntry a), (1, runEntry b)],
          some [(0, mkUsage i o1), (1, mkUsage i o2)]⟩ 2 =
      (.multi [toolFanResp 0 a (mkUsage i o3)],
        ⟨[(0, sentToolEntry a), (1, runEntry b)],
          some [(0, mkUsage i o3), (1, mkUsage i o2)]⟩) := by
  rfl

/-- A re-announced finish for an already-sent choice is filtered, never
re-emitted. -/
theorem c3step4 (a b : String) (i o2 o3 o4 : Nat) :
    mergeSingleResponse (mkFinish 0 "tool_calls" (mkUsage i o4))
        ⟨[(0, sentToolEntry a), (1, runEntry b)],
          some [(0, mkUsage i o3), (1, mkUsage i o2)]⟩ 2 =
      (.filtered (toolFanResp 0 a (mkUsage i o4)),
        ⟨[(0, sentToolEntry a), (1, runEntry b)],
          some [(0, mkUsage i o4), (1, mkUsage i o2)]⟩) := by
  rfl

/-- Choice 1 finishes and is emitted on its own. -/
theorem c3step5 (a b : String) (i o2 o4 o5 : Nat) :
    mergeSingleResponse (mkFinish 1 "tool_calls" (mkUsage i o5))
        ⟨[(0, sentToolEntry a), (1, runEntry b)],
          some [(0, mkUsage i o4), (1, mkUsage i o2)]⟩ 2 =
      (.multi [toolFanResp 1 b (mkUsage i o5)],
        ⟨[(0, sentToolEntry a), (1, sentToolEntry b)],
          some [(0, mkUsage i o4), (1, mkUsage i o5)]⟩) := by
  rfl

/-- After every choice is marked sent, any further fragment is filtered
untouched. -/
theorem c3step6 (a b c : String) (i o4 o5 o6 : Nat) :
    mergeSingleResponse (mkDeltaU 0 c (mkUsage i o6))
        ⟨[(0, sentToolEntry a), (1, sentToolEntry b)],
          some [(0, mkUsage i o4), (1, mkUsage i o5)]⟩ 2 =
      (.filtered (mkDeltaU 0 c (mkUsage i o6)),
        ⟨[(0, sentToolEntry a), (1, sentToolEntry b)],
          some [(0, mkUsage i o4), (1, mkUsage i o5)]⟩) := by
  rfl

/-- C3: with `n = 2` and finish reason `tool_calls`, for any contents and
token counts, each finishing choice is emitted as its own single-choice
response in the very call its `finish_reason` arrives — choice 0 at the
third call while choice 1 is still running, choice 1 at the fifth — each
carrying that choice's own `output_tokens`; a re-announced already-sent
choice is filtered (fourth call), and once both are marked sent every
further fragment is filtered (sixth call). -/
theorem c3_nonstop_fanout (a b c : String) (i o1 o2 o3 o4 o5 o6 : Nat) :
    mergeStream 2 emptyAcc
        [mkDeltaU 0 a (mkUsage i o1), mkDeltaU 1 b (mkUsage i o2),
          mkFinish 0 "tool_calls" (mkUsage i o3), mkFinish 0 "tool_calls" (mkUsage i o4),
          mkFinish 1 "tool_calls" (mkUsage i o5), mkDeltaU 0 c (mkUsage i o6)] =
      ([.yield_ (mkDeltaU 0 a (mkUsage i o1)),
        .yield_ (mkDeltaU 1 b (mkUsage i o2)),
        .multi [toolFanResp 0 a (mkUsage i o3)],
        .filtered (toolFanResp 0 a (mkUsage i o4)),
        .multi [toolFanResp 1 b (mkUsage i o5)],
        .filtered (mkDeltaU 0 c (mkUsage i o6))],
        ⟨[(0, sentToolEntry a), (1, sentToolEntry b)],
          some [(0, mkUsage i o4), (1, mkUsage i o5)]⟩) := by
  simp only [mergeStream, c3step1, c3step2, c3step3, c3step4, c3step5, c3step6]
